import Mathlib

/-!
Verification of the coaster repository: the class-based view layer
(coaster/views/classview.py) and the error logger (coaster/logger.py),
shallowly embedded in Lean.

Python dicts are embedded as association lists (insertion-ordered, unique
keys maintained by the update operation), Python sets of model classes as
lists without duplicates, exceptions as the Except monad, and outbound
HTTP calls as oracle functions supplied as parameters.
-/

namespace Coaster

/-- Association-list lookup, modelling Python dict lookup (`d[k]` / `d.get(k)`
and `k in d`). -/
def alookup {α β : Type} [DecidableEq α] : List (α × β) → α → Option β
  | [], _ => none
  | (k, v) :: rest, a => if k = a then some v else alookup rest a

/-- Python dict assignment `d[k] = v`: replaces the value in place when the key
exists (keeping insertion order), else appends a new entry. -/
def dset {α β : Type} [DecidableEq α] : List (α × β) → α → β → List (α × β)
  | [], a, b => [(a, b)]
  | (k, v) :: rest, a, b => if k = a then (a, b) :: rest else (k, v) :: dset rest a b

namespace Views

/-- `rulejoin(class_rule, method_rule)` from classview.py: join class and
method URL rules. An empty Python string is falsy, so `not method_rule`
is embedded as `method_rule == ""`. -/
def rulejoin (class_rule method_rule : String) : String :=
  if method_rule.startsWith "/" then method_rule
  else class_rule ++ (if class_rule.endsWith "/" || method_rule == "" then "" else "/") ++ method_rule

/-- An attribute found in a class `__dict__` during `ClassView.init_app`'s
scan: either a `ViewDecorator` (produced by the `route` decorator, carrying
its route rules) or any other attribute (a plain undecorated method, a
class attribute, ...), identified by an id so that distinct definitions of
the same name can be told apart. -/
inductive VAttr : Type
  | viewdec (routes : List String) (fid : Nat) : VAttr
  | plain (fid : Nat) : VAttr
deriving DecidableEq

/-- Is this attribute a `ViewDecorator`? (`isinstance(attr, ViewDecorator)`) -/
def VAttr.isViewdec : VAttr → Bool
  | .viewdec _ _ => true
  | .plain _ => false

/-- A class `__dict__`, as an insertion-ordered list of name/attribute pairs. -/
def ClassDict : Type := List (String × VAttr)

/-- The scanning loop of `ClassView.init_app`: the two nested loops
(`for base in cls.__mro__: for name, attr in base.__dict__.items():`)
traverse the concatenation of the MRO's class dicts item by item, sharing
one `processed` set; a name already processed is skipped, otherwise it is
added to `processed` and, when the attribute is a `ViewDecorator`, its
`init_app` is invoked (recorded here as a registration). -/
def init_app_scan : List (String × VAttr) → List String → List (String × VAttr)
  | [], _ => []
  | (name, attr) :: rest, processed =>
    if name ∈ processed then init_app_scan rest processed
    else (if attr.isViewdec then [(name, attr)] else []) ++ init_app_scan rest (name :: processed)

/-- `ClassView.init_app(cls, app)`: the list of `(name, ViewDecorator)`
registrations performed, in order, for a class whose method-resolution
order is `mro` (most-derived class first, each entry that class's own
`__dict__`). -/
def init_app (mro : List ClassDict) : List (String × VAttr) :=
  init_app_scan mro.flatten []

theorem init_app_scan_mem {l : List (String × VAttr)} {processed : List String}
    {name : String} {attr : VAttr} :
    (name, attr) ∈ init_app_scan l processed ↔
      name ∉ processed ∧ alookup l name = some attr ∧ attr.isViewdec = true := by
  induction l generalizing processed with
  | nil => simp [init_app_scan, alookup]
  | cons hd tl ih =>
    obtain ⟨k, v⟩ := hd
    by_cases hk : k ∈ processed
    · rw [init_app_scan, if_pos hk, ih]
      by_cases he : k = name
      · subst he
        simp [alookup, hk]
      · simp [alookup, he]
    · rw [init_app_scan, if_neg hk]
      by_cases he : k = name
      · subst he
        by_cases hv : v.isViewdec
        · simp only [if_pos hv, List.singleton_append, List.mem_cons, ih, alookup,
            if_pos rfl]
          constructor
          · rintro (hm | ⟨hn, -, -⟩)
            · injection hm with h1 h2
              subst h2
              exact ⟨hk, rfl, hv⟩
            · exact absurd (Or.inl trivial) hn
          · rintro ⟨hn, h2, h3⟩
            injection h2 with h2
            subst h2
            exact Or.inl rfl
        · simp only [if_neg hv, List.nil_append, ih, alookup, if_pos rfl]
          constructor
          · rintro ⟨hn, -, -⟩
            exact absurd (List.mem_cons_self _ _) hn
          · rintro ⟨hn, h2, h3⟩
            injection h2 with h2
            subst h2
            exact absurd h3 (by simpa using hv)
      · have hmem : (name, attr) ∈ init_app_scan tl (k :: processed) ↔
            name ∉ processed ∧ alookup tl name = some attr ∧ attr.isViewdec = true := by
          rw [ih]
          constructor
          · rintro ⟨hn, h2, h3⟩
            exact ⟨fun h => hn (List.mem_cons_of_mem _ h), h2, h3⟩
          · rintro ⟨hn, h2, h3⟩
            refine ⟨fun h => ?_, h2, h3⟩
            rcases List.mem_cons.mp h with h | h
            · exact he h.symm
            · exact hn h
        have halk : alookup ((k, v) :: tl) name = alookup tl name := by
          simp [alookup, he]
        rw [halk]
        by_cases hv : v.isViewdec
        · simp only [if_pos hv, List.singleton_append, List.mem_cons]
          rw [← hmem]
          constructor
          · rintro (hm | h)
            · injection hm with h1 h2
              exact absurd h1.symm he
            · exact h
          · exact fun h => Or.inr h
        · simpa only [if_neg hv, List.nil_append] using hmem

theorem init_app_scan_names_nodup (l : List (String × VAttr)) (processed : List String) :
    (init_app_scan l processed).map Prod.fst |>.Nodup := by
  induction l generalizing processed with
  | nil => simp [init_app_scan]
  | cons hd tl ih =>
    obtain ⟨k, v⟩ := hd
    by_cases hk : k ∈ processed
    · simpa [init_app_scan, hk] using ih processed
    · by_cases hv : v.isViewdec
      · simp only [init_app_scan, if_neg hk, if_pos hv, List.singleton_append,
          List.map_cons, List.nodup_cons]
        refine ⟨fun hmem => ?_, ih (k :: processed)⟩
        simp only [List.mem_map] at hmem
        obtain ⟨⟨n, a⟩, hmem, hfst⟩ := hmem
        have hnk : n = k := hfst
        exact (init_app_scan_mem.mp hmem).1 (by rw [hnk]; exact List.mem_cons_self _ _)
      · simpa [init_app_scan, hk, hv] using ih (k :: processed)

/-- Claim C1: for every ClassView subclass, `init_app` walks the class's
method-resolution order and registers each route-decorated view attribute
exactly once per attribute name (the registered names carry no duplicate),
taking the definition from the most-derived class in the MRO that defines
that name (the first definition in MRO order, i.e. `alookup mro.flatten`):
a `(name, attr)` pair is registered iff `attr` is the MRO's first definition
of `name` and is a `ViewDecorator`. Consequently an override replaces the
base class's registration for that name, and a plain undecorated override
removes it entirely. -/
theorem claim_C1_init_app_mro (mro : List ClassDict) :
    ((init_app mro).map Prod.fst).Nodup ∧
    ∀ name attr, (name, attr) ∈ init_app mro ↔
      (alookup mro.flatten name = some attr ∧ attr.isViewdec = true) := by
  refine ⟨init_app_scan_names_nodup _ _, fun name attr => ?_⟩
  rw [init_app, init_app_scan_mem]
  simp

theorem string_append_empty_middle (s t : String) : s ++ "" ++ t = s ++ t := by
  obtain ⟨l⟩ := s
  obtain ⟨m⟩ := t
  show String.mk (l ++ [] ++ m) = String.mk (l ++ m)
  rw [List.append_nil]

/-- Claim C2: `rulejoin(class_rule, method_rule)` returns `method_rule` when
it begins with a slash; otherwise the direct concatenation when `class_rule`
ends with a slash or `method_rule` is empty, and the concatenation through a
slash in every other case. -/
theorem claim_C2_rulejoin (class_rule method_rule : String) :
    rulejoin class_rule method_rule =
      if method_rule.startsWith "/" then method_rule
      else if class_rule.endsWith "/" ∨ method_rule = "" then class_rule ++ method_rule
      else class_rule ++ "/" ++ method_rule := by
  rw [rulejoin]
  by_cases h1 : method_rule.startsWith "/"
  · rw [if_pos h1, if_pos h1]
  · rw [if_neg h1, if_neg h1]
    by_cases h2 : class_rule.endsWith "/" ∨ method_rule = ""
    · rw [if_pos h2, if_pos (by
        rcases h2 with h | h
        · simp [h]
        · simp [h])]
      exact string_append_empty_middle class_rule method_rule
    · rw [if_neg h2, if_neg (by
        push_neg at h2
        simp [h2.1, h2.2])]

/-- SQLAlchemy attribute metadata as the loader inspects it: a plain column
attribute, or a relationship whose `property.argument` resolves to the
target class (`source.property.argument.class_` when it is a `Mapper`, the
argument itself otherwise — both embedded as the target class name). -/
inductive SAttrKind : Type
  | column
  | relationship (target : String)
deriving DecidableEq

/-- The mapped classes: each class name maps to its instrumented attributes. -/
def ModelEnv : Type := List (String × List (String × SAttrKind))

/-- `attr_kind env m a`: what `getattr(m, a)` is, when `m` is a mapped class
known to `env` and `a` one of its instrumented attributes. -/
def attr_kind (env : ModelEnv) (model attr : String) : Option SAttrKind :=
  match alookup env model with
  | some attrs => alookup attrs attr
  | none => none

/-- The loader's `source` variable: a mapped class, or an instrumented
attribute `getattr(model, attr)` of one. -/
inductive Source : Type
  | cls (model : String)
  | iattr (model : String) (attr : String)
deriving DecidableEq

/-- The query the loader builds: the base model, the classes JOINed to it in
order, and the filter conditions `source == value` in order. -/
structure QueryS (V : Type) : Type where
  model : String
  joins : List String
  filters : List (Source × V)
deriving DecidableEq

/-- The loader's loop state: the query built so far and the `joined_models`
set (kept as the insertion-ordered list of its elements). -/
structure LoadState (V : Type) : Type where
  query : QueryS V
  joined_models : List String
deriving DecidableEq

/-- One iteration of the loader's dotted-path loop:
`source = getattr(source, subname)`, then, when that is a relationship
attribute, replace it by the target class, JOINing the target to the query
unless it is in `joined_models` already. `getattr` on anything but a mapped
class with the attribute present raises AttributeError, embedded as
`.error`. -/
def loader_path_step {V : Type} (env : ModelEnv) (st : LoadState V)
    (source : Source) (subname : String) : Except String (LoadState V × Source) :=
  match source with
  | .cls m =>
    match attr_kind env m subname with
    | none => .error "AttributeError"
    | some .column => .ok (st, .iattr m subname)
    | some (.relationship target) =>
      if target ∈ st.joined_models then .ok (st, .cls target)
      else .ok ({ query := { st.query with joins := st.query.joins ++ [target] },
                  joined_models := st.joined_models ++ [target] }, .cls target)
  | .iattr _ _ => .error "AttributeError"

/-- The loader's `for subname in name.split('.')` loop. -/
def loader_traverse {V : Type} (env : ModelEnv) :
    LoadState V → Source → List String → Except String (LoadState V × Source)
  | st, source, [] => .ok (st, source)
  | st, source, subname :: rest =>
    match loader_path_step env st source subname with
    | .ok ps => loader_traverse env ps.1 ps.2 rest
    | .error e => .error e

/-- `'.' in name`. -/
def contains_dot (s : String) : Bool :=
  s.data.any (fun c => c == '.')

/-- `name.split('.')` on the underlying character list. -/
def split_dot_aux : List Char → List Char → List String
  | [], acc => [String.mk acc.reverse]
  | c :: rest, acc =>
    if c == '.' then String.mk acc.reverse :: split_dot_aux rest []
    else split_dot_aux rest (c :: acc)

/-- `name.split('.')`. -/
def split_dot (s : String) : List String :=
  split_dot_aux s.data []

/-- One iteration of the loader's `for name, value in filters.items()` loop:
a dotted name is traversed from the base model and the final `source` is
filtered against the value; a plain name filters
`getattr(self.model, name) == value` directly. -/
def loader_filter_step {V : Type} (env : ModelEnv) (model : String)
    (st : LoadState V) (nv : String × V) : Except String (LoadState V) :=
  if contains_dot nv.1 then
    match loader_traverse env st (.cls model) (split_dot nv.1) with
    | .ok ps =>
      .ok { ps.1 with query :=
        { ps.1.query with filters := ps.1.query.filters ++ [(ps.2, nv.2)] } }
    | .error e => .error e
  else
    match attr_kind env model nv.1 with
    | some _ =>
      .ok { st with query :=
        { st.query with filters := st.query.filters ++ [(.iattr model nv.1, nv.2)] } }
    | none => .error "AttributeError"

/-- The `filters` dict comprehension:
`{route_model_map[key]: value for key, value in self.kwargs.items()
if key in route_model_map}` (Python dict semantics: a repeated target key
keeps its first position and the last value). -/
def loader_filters {V : Type} (route_model_map : List (String × String))
    (kwargs : List (String × V)) : List (String × V) :=
  kwargs.foldl (fun d kv =>
    match alookup route_model_map kv.1 with
    | some n => dset d n kv.2
    | none => d) []

/-- The configuration a `ModelView` subclass supplies: the model metadata,
the subclass's `model`, its `route_model_map`, and its optional base
`query`. -/
structure MVConfig (V : Type) : Type where
  env : ModelEnv
  model : String
  route_model_map : List (String × String)
  query : Option (QueryS V)

/-- `self.query or self.model.query`: the base query, `model.query` being
the model's fresh query with no joins or filters. -/
def base_query {V : Type} (cfg : MVConfig V) : QueryS V :=
  match cfg.query with
  | some q => q
  | none => { model := cfg.model, joins := [], filters := [] }

/-- `InstanceLoader.loader`. Returns `.ok none` when no URL variable is a
key of `route_model_map` (the Python function falls off the end and returns
None without touching the database); otherwise `.ok (some q)`, standing for
the single instance `q.one_or_404()` returns — the only database access the
method makes. -/
def loader {V : Type} (cfg : MVConfig V) (kwargs : List (String × V)) :
    Except String (Option (QueryS V)) :=
  if kwargs.any (fun kv => (alookup cfg.route_model_map kv.1).isSome) then
    match (loader_filters cfg.route_model_map kwargs).foldlM
        (loader_filter_step cfg.env cfg.model)
        ({ query := base_query cfg, joined_models := [] } : LoadState V) with
    | .ok st => .ok (some st.query)
    | .error e => .error e
  else .ok none

/-- A `ModelView` instance's state after `before_request`: `self.kwargs` and
`self.obj`. -/
structure VInst (V : Type) : Type where
  kwargs : List (String × V)
  obj : Option (QueryS V)

/-- `ModelView.before_request`: calls `ClassView.before_request` (a no-op),
stores the URL rule keyword arguments at `self.kwargs` and `self.loader()`'s
result at `self.obj`. -/
def before_request {V : Type} (cfg : MVConfig V) (_view : String)
    (kwargs : List (String × V)) : Except String (VInst V) :=
  match loader cfg kwargs with
  | .ok obj => .ok { kwargs := kwargs, obj := obj }
  | .error e => .error e

/-- `_modelview_view_decorator`: wraps a view handler method so that, when
invoked as a view, `inner(self, **kwargs)` returns `f(self)` — the handler
is called with the instance alone and the URL rule keyword arguments are
discarded. -/
def modelview_view_decorator {V O : Type} (f : VInst V → List (String × V) → O) :
    VInst V → List (String × V) → O :=
  fun self _kwargs => f self []

/-- The `view_func` closure `ViewDecorator.init_app` builds, specialised to a
`ModelView` subclass: instantiate the view class, call its `before_request`
with the URL rule keyword arguments, then call the handler wrapped by the
class's `__decorators__ = [_modelview_view_decorator]`. -/
def modelview_view_func {V O : Type} (cfg : MVConfig V)
    (f : VInst V → List (String × V) → O) (view_name : String)
    (kwargs : List (String × V)) : Except String O :=
  match before_request cfg view_name kwargs with
  | .ok inst => .ok (modelview_view_decorator f inst kwargs)
  | .error e => .error e

/-- Claim-side description (C3): a well-formed filter path on the model
metadata — every segment but the last names a relationship, followed
through to the related class, and the last names a column attribute of the
class reached. -/
def path_ok (env : ModelEnv) : String → List String → Bool
  | _, [] => false
  | m, [a] =>
    match attr_kind env m a with
    | some .column => true
    | _ => false
  | m, a :: b :: rest =>
    match attr_kind env m a with
    | some (.relationship t) => path_ok env t (b :: rest)
    | _ => false

/-- Claim-side description (C3): the attribute a well-formed path resolves
to — the last segment, on the class reached by following the relationship
segments. -/
def path_target (env : ModelEnv) : String → List String → Source
  | m, [] => .cls m
  | m, [a] => .iattr m a
  | m, a :: b :: rest =>
    match attr_kind env m a with
    | some (.relationship t) => path_target env t (b :: rest)
    | _ => .cls m

/-- Claim-side description (C3/C4): the related classes a path reaches, in
traversal order. -/
def path_rel_targets (env : ModelEnv) : String → List String → List String
  | _, [] => []
  | _, [_] => []
  | m, a :: b :: rest =>
    match attr_kind env m a with
    | some (.relationship t) => t :: path_rel_targets env t (b :: rest)
    | _ => []

/-- `filter_ok` for a whole filter name: a dotted name must be a well-formed
path; a plain name must be an attribute of the model. -/
def filter_ok (env : ModelEnv) (model : String) (name : String) : Bool :=
  if contains_dot name then path_ok env model (split_dot name)
  else (attr_kind env model name).isSome

/-- The model attribute a filter name resolves to. -/
def filter_target (env : ModelEnv) (model : String) (name : String) : Source :=
  if contains_dot name then path_target env model (split_dot name)
  else .iattr model name

/-- The related classes a filter name reaches. -/
def filter_rel_targets (env : ModelEnv) (model : String) (name : String) :
    List String :=
  if contains_dot name then path_rel_targets env model (split_dot name) else []

/-- Claim-side description (C3/C4): append each target once, skipping those
already joined. -/
def join_dedup (joined : List String) (targets : List String) : List String :=
  targets.foldl (fun acc t => if t ∈ acc then acc else acc ++ [t]) joined

/-- Claim-side description (C3): the classes the whole filter set joins, each
at most once, in traversal order. -/
def spec_joins (env : ModelEnv) (model : String) (names : List String) :
    List String :=
  names.foldl (fun acc n => join_dedup acc (filter_rel_targets env model n)) []

/-- The state after JOINing one fresh target class (the else branch of the
JOIN guard in `loader_path_step`). -/
def join_state {V : Type} (st : LoadState V) (t : String) : LoadState V :=
  { query := { st.query with joins := st.query.joins ++ [t] },
    joined_models := st.joined_models ++ [t] }

theorem loader_traverse_spec {V : Type} (env : ModelEnv) :
    ∀ (segs : List String) (m : String) (st : LoadState V) (B : List String),
    path_ok env m segs = true →
    st.query.joins = B ++ st.joined_models →
    ∃ st2, loader_traverse env st (.cls m) segs = .ok (st2, path_target env m segs) ∧
      st2.joined_models = join_dedup st.joined_models (path_rel_targets env m segs) ∧
      st2.query.joins = B ++ st2.joined_models ∧
      st2.query.filters = st.query.filters ∧
      st2.query.model = st.query.model := by
  intro segs
  induction segs with
  | nil =>
    intro m st B hok hinv
    simp [path_ok] at hok
  | cons a rest ih =>
    intro m st B hok hinv
    cases rest with
    | nil =>
      cases hak : attr_kind env m a with
      | none => simp [path_ok, hak] at hok
      | some kind =>
        cases kind with
        | column =>
          refine ⟨st, ?_, ?_, ?_, rfl, rfl⟩
          · simp only [loader_traverse, loader_path_step, hak, path_target]
          · simp only [path_rel_targets, join_dedup, List.foldl_nil]
          · exact hinv
        | relationship t => simp [path_ok, hak] at hok
    | cons b rest2 =>
      cases hak : attr_kind env m a with
      | none => simp [path_ok, hak] at hok
      | some kind =>
        cases kind with
        | column => simp [path_ok, hak] at hok
        | relationship t =>
          have hok2 : path_ok env t (b :: rest2) = true := by
            simpa [path_ok, hak] using hok
          have htgt : path_target env m (a :: b :: rest2) = path_target env t (b :: rest2) := by
            simp only [path_target, hak]
          have hrel : path_rel_targets env m (a :: b :: rest2) =
              t :: path_rel_targets env t (b :: rest2) := by
            simp only [path_rel_targets, hak]
          by_cases hj : t ∈ st.joined_models
          · obtain ⟨st2, h1, h2, h3, h4, h5⟩ := ih t st B hok2 hinv
            refine ⟨st2, ?_, ?_, h3, h4, h5⟩
            · simp only [loader_traverse, loader_path_step, hak, if_pos hj, htgt]
              exact h1
            · rw [hrel, h2]
              simp [join_dedup, hj]
          · have hinv1 : (join_state st t).query.joins =
                B ++ (join_state st t).joined_models := by
              show st.query.joins ++ [t] = B ++ (st.joined_models ++ [t])
              rw [hinv, List.append_assoc]
            obtain ⟨st2, h1, h2, h3, h4, h5⟩ := ih t (join_state st t) B hok2 hinv1
            refine ⟨st2, ?_, ?_, h3, h4, h5⟩
            · simp only [loader_traverse, loader_path_step, hak, if_neg hj, htgt]
              exact h1
            · rw [hrel, h2]
              simp [join_dedup, hj, join_state]

theorem loader_filter_step_spec {V : Type} (env : ModelEnv) (model : String)
    (st : LoadState V) (nv : String × V) (B : List String)
    (hok : filter_ok env model nv.1 = true)
    (hinv : st.query.joins = B ++ st.joined_models) :
    ∃ st2, loader_filter_step env model st nv = .ok st2 ∧
      st2.joined_models = join_dedup st.joined_models (filter_rel_targets env model nv.1) ∧
      st2.query.joins = B ++ st2.joined_models ∧
      st2.query.filters = st.query.filters ++ [(filter_target env model nv.1, nv.2)] ∧
      st2.query.model = st.query.model := by
  by_cases hd : contains_dot nv.1
  · rw [filter_ok, if_pos hd] at hok
    obtain ⟨st1, h1, h2, h3, h4, h5⟩ :=
      loader_traverse_spec env (split_dot nv.1) model st B hok hinv
    refine ⟨{ st1 with query :=
        { st1.query with filters :=
            st1.query.filters ++ [(path_target env model (split_dot nv.1), nv.2)] } },
      ?_, ?_, ?_, ?_, ?_⟩
    · rw [loader_filter_step, if_pos hd, h1]
    · rw [filter_rel_targets, if_pos hd]
      exact h2
    · exact h3
    · rw [filter_target, if_pos hd, h4]
    · exact h5
  · rw [filter_ok, if_neg hd] at hok
    obtain ⟨kind, hk⟩ := Option.isSome_iff_exists.mp hok
    refine ⟨{ st with query :=
        { st.query with filters :=
            st.query.filters ++ [(.iattr model nv.1, nv.2)] } }, ?_, ?_, hinv, ?_, rfl⟩
    · rw [loader_filter_step, if_neg hd, hk]
    · rw [filter_rel_targets, if_neg hd, join_dedup]
      rfl
    · rw [filter_target, if_neg hd]

theorem loader_fold_spec {V : Type} (env : ModelEnv) (model : String) :
    ∀ (fl : List (String × V)) (st : LoadState V) (B : List String),
    (∀ nv ∈ fl, filter_ok env model nv.1 = true) →
    st.query.joins = B ++ st.joined_models →
    ∃ st2, fl.foldlM (loader_filter_step env model) st = .ok st2 ∧
      st2.joined_models = fl.foldl
        (fun acc nv => join_dedup acc (filter_rel_targets env model nv.1))
        st.joined_models ∧
      st2.query.joins = B ++ st2.joined_models ∧
      st2.query.filters = st.query.filters ++
        fl.map (fun nv => (filter_target env model nv.1, nv.2)) ∧
      st2.query.model = st.query.model := by
  intro fl
  induction fl with
  | nil =>
    intro st B hok hinv
    exact ⟨st, rfl, rfl, hinv, by simp, rfl⟩
  | cons hd tl ih =>
    intro st B hok hinv
    obtain ⟨st1, h1, h2, h3, h4, h5⟩ := loader_filter_step_spec env model st hd B
      (hok hd (List.mem_cons_self _ _)) hinv
    obtain ⟨st2, g1, g2, g3, g4, g5⟩ := ih st1 B
      (fun nv hnv => hok nv (List.mem_cons_of_mem _ hnv)) h3
    refine ⟨st2, ?_, ?_, g3, ?_, by rw [g5, h5]⟩
    · rw [List.foldlM_cons, h1]
      exact g1
    · rw [List.foldl_cons, ← h2]
      exact g2
    · rw [g4, h4, List.map_cons, List.append_assoc, List.singleton_append]

theorem loader_path_step_nodup {V : Type} (env : ModelEnv) (st : LoadState V)
    (source : Source) (subname : String) (ps : LoadState V × Source) (B : List String)
    (h : loader_path_step env st source subname = .ok ps)
    (hnd : st.joined_models.Nodup) (hinv : st.query.joins = B ++ st.joined_models) :
    ps.1.joined_models.Nodup ∧ ps.1.query.joins = B ++ ps.1.joined_models := by
  cases source with
  | iattr m a => simp [loader_path_step] at h
  | cls m =>
    cases hak : attr_kind env m subname with
    | none => simp [loader_path_step, hak] at h
    | some kind =>
      cases kind with
      | column =>
        simp only [loader_path_step, hak, Except.ok.injEq] at h
        subst h
        exact ⟨hnd, hinv⟩
      | relationship t =>
        by_cases hj : t ∈ st.joined_models
        · simp only [loader_path_step, hak, if_pos hj, Except.ok.injEq] at h
          subst h
          exact ⟨hnd, hinv⟩
        · simp only [loader_path_step, hak, if_neg hj, Except.ok.injEq] at h
          subst h
          constructor
          · show (st.joined_models ++ [t]).Nodup
            simp [List.nodup_append, hnd, hj]
          · show st.query.joins ++ [t] = B ++ (st.joined_models ++ [t])
            rw [hinv, List.append_assoc]

theorem loader_traverse_nodup {V : Type} (env : ModelEnv) :
    ∀ (segs : List String) (st : LoadState V) (source : Source)
      (res : LoadState V × Source) (B : List String),
    loader_traverse env st source segs = .ok res →
    st.joined_models.Nodup → st.query.joins = B ++ st.joined_models →
    res.1.joined_models.Nodup ∧ res.1.query.joins = B ++ res.1.joined_models := by
  intro segs
  induction segs with
  | nil =>
    intro st source res B h hnd hinv
    simp only [loader_traverse, Except.ok.injEq] at h
    subst h
    exact ⟨hnd, hinv⟩
  | cons a rest ih =>
    intro st source res B h hnd hinv
    cases hstep : loader_path_step env st source a with
    | error e =>
      simp only [loader_traverse, hstep] at h
      exact Except.noConfusion h
    | ok ps =>
      simp only [loader_traverse, hstep] at h
      obtain ⟨n1, n2⟩ := loader_path_step_nodup env st source a ps B hstep hnd hinv
      exact ih ps.1 ps.2 res B h n1 n2

theorem loader_filter_step_nodup {V : Type} (env : ModelEnv) (model : String)
    (st st2 : LoadState V) (nv : String × V) (B : List String)
    (h : loader_filter_step env model st nv = .ok st2)
    (hnd : st.joined_models.Nodup) (hinv : st.query.joins = B ++ st.joined_models) :
    st2.joined_models.Nodup ∧ st2.query.joins = B ++ st2.joined_models := by
  by_cases hd : contains_dot nv.1
  · rw [loader_filter_step, if_pos hd] at h
    cases htr : loader_traverse env st (.cls model) (split_dot nv.1) with
    | error e =>
      rw [htr] at h
      exact Except.noConfusion h
    | ok ps =>
      obtain ⟨n1, n2⟩ := loader_traverse_nodup env _ st _ ps B htr hnd hinv
      simp only [htr, Except.ok.injEq] at h
      subst h
      exact ⟨n1, n2⟩
  · rw [loader_filter_step, if_neg hd] at h
    cases hak : attr_kind env model nv.1 with
    | none =>
      rw [hak] at h
      exact Except.noConfusion h
    | some kind =>
      simp only [hak, Except.ok.injEq] at h
      subst h
      exact ⟨hnd, hinv⟩

theorem loader_fold_nodup {V : Type} (env : ModelEnv) (model : String) :
    ∀ (fl : List (String × V)) (st st2 : LoadState V) (B : List String),
    fl.foldlM (loader_filter_step env model) st = .ok st2 →
    st.joined_models.Nodup → st.query.joins = B ++ st.joined_models →
    st2.joined_models.Nodup ∧ st2.query.joins = B ++ st2.joined_models := by
  intro fl
  induction fl with
  | nil =>
    intro st st2 B h hnd hinv
    simp only [List.foldlM_nil] at h
    cases h
    exact ⟨hnd, hinv⟩
  | cons hd tl ih =>
    intro st st2 B h hnd hinv
    rw [List.foldlM_cons] at h
    cases hstep : loader_filter_step env model st hd with
    | error e =>
      rw [hstep] at h
      exact Except.noConfusion h
    | ok st1 =>
      rw [hstep] at h
      obtain ⟨n1, n2⟩ := loader_filter_step_nodup env model st st1 hd B hstep hnd hinv
      exact ih st1 st2 B h n1 n2

/-- Claim C3: for a ModelView using InstanceLoader, whenever at least one URL
rule variable is a key of `route_model_map` (and the filter paths are
well-formed on the model metadata, the base query being the model's own),
`loader()` returns (via `one_or_404`, the only database access) the single
instance of a query that filters each mapped model attribute — dotted paths
resolved through relationship attributes to the related class, which is
JOINed to the query — against the corresponding URL variable's value; and
`before_request` stores this result at `self.obj`. -/
theorem claim_C3_instance_loader {V : Type} (cfg : MVConfig V) (view_name : String)
    (kwargs : List (String × V))
    (hmatch : kwargs.any (fun kv => (alookup cfg.route_model_map kv.1).isSome) = true)
    (hok : ∀ nv ∈ loader_filters cfg.route_model_map kwargs,
      filter_ok cfg.env cfg.model nv.1 = true)
    (hbase : cfg.query = none) :
    ∃ q, loader cfg kwargs = .ok (some q) ∧
      q.model = cfg.model ∧
      q.filters = (loader_filters cfg.route_model_map kwargs).map
        (fun nv => (filter_target cfg.env cfg.model nv.1, nv.2)) ∧
      q.joins = spec_joins cfg.env cfg.model
        ((loader_filters cfg.route_model_map kwargs).map Prod.fst) ∧
      before_request cfg view_name kwargs = .ok { kwargs := kwargs, obj := some q } := by
  have hbq : base_query cfg = { model := cfg.model, joins := [], filters := [] } := by
    rw [base_query, hbase]
  obtain ⟨st2, hfold, hjm, hjq, hfil, hmod⟩ := loader_fold_spec cfg.env cfg.model
    (loader_filters cfg.route_model_map kwargs)
    { query := base_query cfg, joined_models := [] } [] hok (by simp [hbq])
  have hload : loader cfg kwargs = .ok (some st2.query) := by
    rw [loader, if_pos hmatch, hfold]
  refine ⟨st2.query, hload, ?_, ?_, ?_, ?_⟩
  · rw [hmod, hbq]
  · rw [hfil, hbq]
    simp
  · rw [hjq, List.nil_append, hjm, hbq, spec_joins, List.foldl_map]
  · rw [before_request, hload]

/-- Concrete fixtures for the loader witnesses: a document with a `parent`
relationship to another mapped class. -/
def c3_cfg : MVConfig String :=
  { env := [("ScopedDoc", [("name", .column), ("parent", .relationship "Doc")]),
            ("Doc", [("name", .column)])],
    model := "ScopedDoc",
    route_model_map := [("document", "name"), ("parent", "parent.name")],
    query := none }

theorem claim_C3_witness :
    ∃ q, loader c3_cfg [("document", "d1"), ("parent", "p1")] = .ok (some q) ∧
      q.model = c3_cfg.model ∧
      q.filters = (loader_filters c3_cfg.route_model_map
          [("document", "d1"), ("parent", "p1")]).map
        (fun nv => (filter_target c3_cfg.env c3_cfg.model nv.1, nv.2)) ∧
      q.joins = spec_joins c3_cfg.env c3_cfg.model
        ((loader_filters c3_cfg.route_model_map
          [("document", "d1"), ("parent", "p1")]).map Prod.fst) ∧
      before_request c3_cfg "view" [("document", "d1"), ("parent", "p1")] =
        .ok { kwargs := [("document", "d1"), ("parent", "p1")], obj := some q } :=
  claim_C3_instance_loader c3_cfg "view" [("document", "d1"), ("parent", "p1")]
    (by decide) (by decide) rfl

/-- Claim C4: within a single `loader()` call, each related model class is
JOINed at most once: after every iteration of the filter loop (every prefix
of length `n` of the `filters` items), the `joined_models` set carries no
duplicate, and the joins added to the query are exactly those models. -/
theorem claim_C4_join_once {V : Type} (cfg : MVConfig V) (kwargs : List (String × V))
    (n : Nat) (st2 : LoadState V)
    (h : ((loader_filters cfg.route_model_map kwargs).take n).foldlM
      (loader_filter_step cfg.env cfg.model)
      ({ query := base_query cfg, joined_models := [] } : LoadState V) = .ok st2) :
    st2.joined_models.Nodup ∧
    st2.query.joins = (base_query cfg).joins ++ st2.joined_models :=
  loader_fold_nodup cfg.env cfg.model _ _ st2 (base_query cfg).joins h
    List.nodup_nil (by simp)

/-- A configuration with two dotted filter paths through the same related
class, to exercise the JOIN deduplication. -/
def c4_cfg : MVConfig String :=
  { env := [("SD", [("parent", .relationship "Doc")]),
            ("Doc", [("name", .column), ("title", .column)])],
    model := "SD",
    route_model_map := [("a", "parent.name"), ("b", "parent.title")],
    query := none }

theorem claim_C4_witness :
    ∃ st2, ((loader_filters c4_cfg.route_model_map [("a", "x"), ("b", "y")]).take 2).foldlM
      (loader_filter_step c4_cfg.env c4_cfg.model)
      ({ query := base_query c4_cfg, joined_models := [] } : LoadState String) = .ok st2 ∧
      st2.joined_models.Nodup ∧
      st2.query.joins = (base_query c4_cfg).joins ++ st2.joined_models := by
  refine ⟨_, rfl, ?_⟩
  exact claim_C4_join_once c4_cfg [("a", "x"), ("b", "y")] 2 _ rfl

/-- Claim C9: a view handler method on a ModelView subclass, invoked as a
view, receives no URL rule variables as keyword parameters: `before_request`
stores the keyword arguments at `self.kwargs` and `loader()`'s result at
`self.obj`, and the decorator appended by ModelView calls the handler with
the instance alone (an empty keyword dictionary). -/
theorem claim_C9_kwargs_not_passed {V O : Type} (cfg : MVConfig V)
    (f : VInst V → List (String × V) → O) (view_name : String)
    (kwargs : List (String × V)) :
    modelview_view_func cfg f view_name kwargs =
      match loader cfg kwargs with
      | .ok obj => .ok (f { kwargs := kwargs, obj := obj } [])
      | .error e => .error e := by
  rw [modelview_view_func, before_request]
  cases loader cfg kwargs <;> rfl

/-- Claim C10: if none of a request's URL rule variables appear as keys of
`route_model_map`, `loader` issues no database query (it returns `none`
rather than a `one_or_404` result) and `self.obj` is `None` when the view
handler runs. -/
theorem claim_C10_no_match_no_query {V : Type} (cfg : MVConfig V)
    (view_name : String) (kwargs : List (String × V))
    (h : ∀ kv ∈ kwargs, alookup cfg.route_model_map kv.1 = none) :
    loader cfg kwargs = .ok none ∧
    before_request cfg view_name kwargs = .ok { kwargs := kwargs, obj := none } := by
  have hany : kwargs.any (fun kv => (alookup cfg.route_model_map kv.1).isSome) = false := by
    rw [List.any_eq_false]
    intro kv hkv
    simp [h kv hkv]
  have hl : loader cfg kwargs = .ok none := by
    rw [loader, hany]
    rfl
  exact ⟨hl, by rw [before_request, hl]⟩

theorem claim_C10_witness :
    loader c3_cfg [("other", "z")] = .ok none ∧
    before_request c3_cfg "view" [("other", "z")] =
      .ok { kwargs := [("other", "z")], obj := none } :=
  claim_C10_no_match_no_query c3_cfg "view" [("other", "z")] (by decide)

end Views

namespace Logger

/-- A log record, with the fields the logger's handlers read. `excInfo` holds
`repr(record.exc_info[1])` when `record.exc_info` is set, else `none`;
`excText` is `record.exc_text` (`None` embedded as `none`). -/
structure LogRecord : Type where
  module : String
  lineno : Nat
  levelname : String
  message : String
  excInfo : Option String
  excText : Option String
deriving DecidableEq

/-- The throttle dictionaries `error_throttle_timestamp_sms` /
`error_throttle_timestamp_slack`: `(record.module, record.lineno)` to the
time of the last send, in seconds (`datetime` arithmetic with
`timedelta(minutes=5)` becomes integer arithmetic with 300). -/
def ThrottleMap : Type := List ((String × Nat) × Int)

/-- The throttle test shared by both emit methods:
`key not in d or (datetime.utcnow() - d[key]) > timedelta(minutes=5)`. -/
def throttle_expired (d : ThrottleMap) (key : String × Nat) (now : Int) : Bool :=
  match alookup d key with
  | none => true
  | some t => decide (now - t > 300)

/-- An outbound `requests.post` call as the SMS paths make it. -/
structure HttpPost : Type where
  url : String
  auth : String × String
  data : List (String × String)
deriving DecidableEq

/-- The `SMSHandler` construction state. -/
structure SMSHandlerS : Type where
  app_name : String
  exotel_sid : String
  exotel_token : String
  exotel_from : String
  twilio_sid : String
  twilio_token : String
  twilio_from : String
  phonenumbers : List String
deriving DecidableEq

/-- The `requests.post` request `SMSHandler.sendsms` makes: Exotel for
numbers starting with +91, Twilio otherwise. -/
def sendsms_request (h : SMSHandlerS) (number message : String) : HttpPost :=
  if number.startsWith "+91" then
    { url := "https://twilix.exotel.in/v1/Accounts/" ++ h.exotel_sid ++ "/Sms/send.json",
      auth := (h.exotel_sid, h.exotel_token),
      data := [("From", h.exotel_from), ("To", number), ("Body", message)] }
  else
    { url := "https://api.twilio.com/2010-04-01/Accounts/" ++ h.twilio_sid ++ "/Messages.json",
      auth := (h.twilio_sid, h.twilio_token),
      data := [("From", h.twilio_from), ("To", number), ("Body", message)] }

/-- `SMSHandler.sendsms`: the whole body is wrapped in a bare
`try: ... except: pass`, so whatever the HTTP post does (the oracle `post`
returning `.error` embeds `requests.post` raising), the method returns
normally. -/
def sendsms {E : Type} (post : HttpPost → Except E Unit) (h : SMSHandlerS)
    (number message : String) : Except E Unit :=
  match post (sendsms_request h number message) with
  | .ok _ => .ok ()
  | .error _ => .ok ()

/-- The SMS body: `"Error in {name}. {msg}. Please check your email for
details"` with `msg = "{message}: {info}"`. -/
def sms_message (h : SMSHandlerS) (record : LogRecord) : String :=
  "Error in " ++ h.app_name ++ ". " ++ record.message ++ ": " ++
    (match record.excInfo with | some i => i | none => "") ++
    ". Please check your email for details"

/-- `SMSHandler.emit`: under the five-minute throttle keyed on
`(record.module, record.lineno)`, calls `sendsms` once per admin phone
number and records the send time in `error_throttle_timestamp_sms`.
Returns the list of `sendsms` calls made (number, message) and the updated
throttle dictionary. -/
def SMSHandler_emit (h : SMSHandlerS) (ts : ThrottleMap) (record : LogRecord)
    (now : Int) : List (String × String) × ThrottleMap :=
  if throttle_expired ts (record.module, record.lineno) now then
    (h.phonenumbers.map (fun n => (n, sms_message h record)),
     dset ts (record.module, record.lineno) now)
  else ([], ts)

/-- One Slack webhook configuration dictionary: its `url`, its
`levelnames` (`webhook.get('levelnames', [])`), and the optional
`channel` / `username` / `icon_emoji` entries copied into the payload. -/
structure SlackWebhook : Type where
  url : String
  levelnames : List String
  extra : List (String × String)
deriving DecidableEq

/-- One attachment of the Slack payload, built from one section of the
formatted exception text. -/
structure SlackAttachment : Type where
  fallback : String
  pretext : String
  text : String
deriving DecidableEq

/-- `s.strip().split('\n', 1)`: at most one split, at the first newline. -/
def strip_split1 (s : String) : List String :=
  match s.trim.splitOn "\n" with
  | [] => []
  | x :: rest => if rest = [] then [x] else [x, String.intercalate "\n" rest]

/-- The sections of `record.exc_text`: split on the `----------` and `----`
separators, flatten, and split each piece into its first line and the rest. -/
def slack_sections (record : LogRecord) : List (List String) :=
  match record.excText with
  | some t => (((t.splitOn "----------").map (fun s => s.splitOn "----")).flatten).map
      strip_split1
  | none => []

/-- An attachment from one section: first line as fallback and pretext, the
rest fenced in backquotes as the text. -/
def section_attachment : List String → SlackAttachment
  | [] => { fallback := "", pretext := "", text := "" }
  | [x] => { fallback := x, pretext := x, text := "" }
  | x :: y :: _ => { fallback := x, pretext := x, text := "```\n" ++ y ++ "\n```" }

/-- The payload's `text` field:
`"*{levelname}* in {name}: {message}: `{info}`"`. -/
def slack_text (app_name : String) (record : LogRecord) : String :=
  "*" ++ record.levelname ++ "* in " ++ app_name ++ ": " ++ record.message ++
    ": `" ++ (match record.excInfo with | some i => i | none => "") ++ "`"

/-- A Slack webhook payload: the shared `data` dict plus the per-webhook
`channel` / `username` / `icon_emoji` entries. -/
structure SlackPayload : Type where
  text : String
  attachments : List SlackAttachment
  extra : List (String × String)
deriving DecidableEq

/-- The body of `SlackHandler.emit`'s webhook loop: skip webhooks whose
`levelnames` do not include the record's level; otherwise post the payload
inside `try: ... except: pass` (both outcomes of the oracle continue
identically — the bare except swallows the failure) and stamp the throttle
dictionary. Accumulates the posts attempted. -/
def slack_webhook_step {E : Type} (spost : String → SlackPayload → Except E Unit)
    (data : SlackPayload) (key : String × Nat) (now : Int) (record : LogRecord)
    (acc : List (String × SlackPayload) × ThrottleMap) (w : SlackWebhook) :
    Except E (List (String × SlackPayload) × ThrottleMap) :=
  if record.levelname ∈ w.levelnames then
    match spost w.url { data with extra := w.extra } with
    | .ok _ => .ok (acc.1 ++ [(w.url, { data with extra := w.extra })], dset acc.2 key now)
    | .error _ => .ok (acc.1 ++ [(w.url, { data with extra := w.extra })], dset acc.2 key now)
  else .ok acc

/-- `SlackHandler.emit`: under the five-minute throttle keyed on
`(record.module, record.lineno)`, and provided some webhook wants the
record's level, build the payload and run the webhook loop. Returns the
posts attempted (url, payload) and the updated
`error_throttle_timestamp_slack`. -/
def SlackHandler_emit {E : Type} (spost : String → SlackPayload → Except E Unit)
    (app_name : String) (webhooks : List SlackWebhook) (ts : ThrottleMap)
    (record : LogRecord) (now : Int) :
    Except E (List (String × SlackPayload) × ThrottleMap) :=
  if throttle_expired ts (record.module, record.lineno) now then
    if record.levelname ∈ (webhooks.map (fun w => w.levelnames)).flatten then
      webhooks.foldlM
        (slack_webhook_step spost
          { text := slack_text app_name record,
            attachments := (slack_sections record).map section_attachment,
            extra := [] } (record.module, record.lineno) now record)
        ([], ts)
    else .ok ([], ts)
  else .ok ([], ts)

/-- A stack frame as `LocalVarFormatter.formatException` reads it; local
variables are identified by an id, and `repr` on them is an oracle. -/
structure Frame : Type where
  co_name : String
  co_filename : String
  f_lineno : Nat
  f_locals : List (String × Nat)
deriving DecidableEq

/-- `"\t%20s = "` with `end=' '`: the key right-aligned to 20 columns. -/
def pad20 (s : String) : String :=
  String.mk (List.replicate (20 - s.length) ' ') ++ s

/-- One local-variable line of `formatException`: `repr(value)` is printed,
and the bare `except` substitutes `<ERROR WHILE PRINTING VALUE>` when it
raises (the oracle returns `.error`). -/
def local_var_line {E : Type} (reprF : Nat → Except E String) (kv : String × Nat) :
    String :=
  "\t" ++ pad20 kv.1 ++ " =  " ++
    (match reprF kv.2 with
     | .ok s => s
     | .error _ => "<ERROR WHILE PRINTING VALUE>")

/-- The lines `formatException` prints for one stack frame. -/
def frame_lines {E : Type} (reprF : Nat → Except E String) (f : Frame) : List String :=
  ["\n----\n",
   "Frame " ++ f.co_name ++ " in " ++ f.co_filename ++ " at line " ++ toString f.f_lineno]
  ++ f.f_locals.map (local_var_line reprF)

/-- One of the request / session / app-context / current-auth blocks:
`pprint` of the object, with the bare `except` substituting
`<ERROR WHILE PRINTING VALUE>` when it raises. -/
def context_lines {E : Type} (pprintF : Nat → Except E String) (title : String) :
    Option Nat → List String
  | none => []
  | some x => ["\n----------\n", title,
      match pprintF x with
      | .ok s => s
      | .error _ => "<ERROR WHILE PRINTING VALUE>"]

/-- The truthy framework proxies `formatException` consults (`request`,
`session`, `g`, `current_auth`), each an object id when present. -/
structure ExcContext : Type where
  request : Option Nat
  session : Option Nat
  g : Option Nat
  current_auth : Option Nat
deriving DecidableEq

/-- `LocalVarFormatter.formatException`, as the list of pieces printed to the
string buffer: the traceback text (`traceback.print_exception`, an input
here), the stack-frame blocks, then the four optional context blocks. -/
def formatException_lines {E : Type} (reprF pprintF : Nat → Except E String)
    (tb_text : String) (stack : List Frame) (ctx : ExcContext) : List String :=
  [tb_text, "\n----------\n", "Stack frames (most recent call first):"]
  ++ (stack.map (frame_lines reprF)).flatten
  ++ context_lines pprintF "Request context:" ctx.request
  ++ context_lines pprintF "Session cookie contents:" ctx.session
  ++ context_lines pprintF "App context:" ctx.g
  ++ context_lines pprintF "Current auth:" ctx.current_auth

/-- `formatException`'s return value: the buffer contents with one trailing
newline stripped. -/
def formatException {E : Type} (reprF pprintF : Nat → Except E String)
    (tb_text : String) (stack : List Frame) (ctx : ExcContext) : String :=
  let s := String.intercalate "\n" (formatException_lines reprF pprintF tb_text stack ctx)
  if s.endsWith "\n" then s.dropRight 1 else s

/-- A Python configuration value, with its truthiness. -/
inductive PyVal : Type
  | pynone
  | pybool (b : Bool)
  | pyint (n : Int)
  | pystr (s : String)
  | pylist (l : List String)
deriving DecidableEq

/-- Python truthiness of a configuration value. -/
def PyVal.truthy : PyVal → Bool
  | .pynone => false
  | .pybool b => b
  | .pyint n => decide (n ≠ 0)
  | .pystr s => decide (s ≠ "")
  | .pylist l => decide (l ≠ [])

/-- `app.config`, an insertion-ordered string-keyed dictionary. -/
def Config : Type := List (String × PyVal)

/-- `app.config.get(key, default)`. -/
def cfg_get (cfg : Config) (key : String) (default : PyVal) : PyVal :=
  match alookup cfg key with
  | some v => v
  | none => default

/-- A handler attached to `app.logger`, with its payload from the
configuration and its level (`logging.WARNING = 30`, `logging.ERROR = 40`,
`logging.NOTSET = 0`). The SMTP handler's sender/server/credential plumbing
is not modelled; no claim touches it. -/
inductive Handler : Type
  | file_handler (filename : PyVal) (level : Nat)
  | sms_handler (numbers : PyVal) (level : Nat)
  | slack_handler (webhooks : PyVal) (level : Nat)
  | mail_handler (admins : PyVal) (level : Nat)
deriving DecidableEq

/-- The six SMS configuration keys whose presence (`key in app.config`) the
SMS branch requires. -/
def sms_config_keys : List String :=
  ["SMS_EXOTEL_SID", "SMS_EXOTEL_TOKEN", "SMS_EXOTEL_FROM",
   "SMS_TWILIO_SID", "SMS_TWILIO_TOKEN", "SMS_TWILIO_FROM"]

/-- `coaster.logger.init_app(app)`. First component: the handlers attached to
`app.logger`, in order. Second component: the attribute names the function
assigns onto the `logging.handlers` framework module
(`logging.handlers.SMSHandler = SMSHandler`,
`logging.handlers.SlackHandler = SlackHandler`). -/
def init_app (cfg : Config) : List Handler × List String :=
  let error_log_file := cfg_get cfg "LOGFILE" (.pystr "error.log")
  let smsOn : Bool := (cfg_get cfg "ADMIN_NUMBERS" .pynone).truthy &&
    sms_config_keys.all (fun k => (alookup cfg k).isSome)
  let slackOn : Bool := (cfg_get cfg "SLACK_LOGGING_WEBHOOKS" .pynone).truthy
  ((if error_log_file.truthy then [Handler.file_handler error_log_file 30] else []) ++
   (if smsOn then [Handler.sms_handler (cfg_get cfg "ADMIN_NUMBERS" .pynone) 40] else []) ++
   (if slackOn then [Handler.slack_handler (cfg_get cfg "SLACK_LOGGING_WEBHOOKS" .pynone) 0] else []) ++
   (if (cfg_get cfg "ADMINS" .pynone).truthy then [Handler.mail_handler (cfg_get cfg "ADMINS" .pynone) 40] else []),
   (if smsOn then ["SMSHandler"] else []) ++ (if slackOn then ["SlackHandler"] else []))

theorem foldlM_except_ok {α β E : Type} (f : β → α → Except E β)
    (hf : ∀ b a, ∃ b2, f b a = .ok b2) :
    ∀ (l : List α) (b : β), ∃ r, l.foldlM f b = .ok r := by
  intro l
  induction l with
  | nil => exact fun b => ⟨b, rfl⟩
  | cons hd tl ih =>
    intro b
    obtain ⟨b2, hb⟩ := hf b hd
    obtain ⟨r, hr⟩ := ih b2
    refine ⟨r, ?_⟩
    rw [List.foldlM_cons, hb]
    exact hr

theorem slack_webhook_step_ok {E : Type} (spost : String → SlackPayload → Except E Unit)
    (data : SlackPayload) (key : String × Nat) (now : Int) (record : LogRecord)
    (acc : List (String × SlackPayload) × ThrottleMap) (w : SlackWebhook) :
    ∃ r, slack_webhook_step spost data key now record acc w = .ok r := by
  rw [slack_webhook_step]
  by_cases hl : record.levelname ∈ w.levelnames
  · rw [if_pos hl]
    cases hsp : spost w.url { data with extra := w.extra } with
    | ok u => exact ⟨_, rfl⟩
    | error e => exact ⟨_, rfl⟩
  · rw [if_neg hl]
    exact ⟨acc, rfl⟩

theorem SlackHandler_emit_ok {E : Type} (spost : String → SlackPayload → Except E Unit)
    (app_name : String) (webhooks : List SlackWebhook) (ts : ThrottleMap)
    (record : LogRecord) (now : Int) :
    ∃ r, SlackHandler_emit spost app_name webhooks ts record now = .ok r := by
  rw [SlackHandler_emit]
  by_cases h1 : throttle_expired ts (record.module, record.lineno) now
  · rw [if_pos h1]
    by_cases h2 : record.levelname ∈ (webhooks.map (fun w => w.levelnames)).flatten
    · rw [if_pos h2]
      exact foldlM_except_ok _ (fun b a => slack_webhook_step_ok spost _ _ now record b a)
        webhooks ([], ts)
    · rw [if_neg h2]
      exact ⟨_, rfl⟩
  · rw [if_neg h1]
    exact ⟨_, rfl⟩

/-- Claim C5: every secondary failure inside a reporting path is swallowed
silently: if the HTTP post raises in `SMSHandler.sendsms` (oracle `post`
returns `.error`) or in `SlackHandler.emit` (oracle `spost`), or `repr` of a
stack-local variable raises in `LocalVarFormatter.formatException` (oracle
`reprF`), the exception is caught and the reporting call returns normally,
`formatException` printing `<ERROR WHILE PRINTING VALUE>` in that
variable's line of its output. -/
theorem claim_C5_secondary_failures_swallowed {E : Type}
    (post : HttpPost → Except E Unit)
    (spost : String → SlackPayload → Except E Unit)
    (reprF pprintF : Nat → Except E String)
    (h : SMSHandlerS) (number message app_name : String)
    (webhooks : List SlackWebhook) (ts : ThrottleMap)
    (record : LogRecord) (now : Int)
    (tb_text : String) (stack : List Frame) (ctx : ExcContext)
    (fr : Frame) (k : String) (v : Nat) (e : E)
    (hfr : fr ∈ stack) (hkv : (k, v) ∈ fr.f_locals) (herr : reprF v = .error e) :
    sendsms post h number message = .ok () ∧
    (∃ r, SlackHandler_emit spost app_name webhooks ts record now = .ok r) ∧
    local_var_line reprF (k, v) =
      "\t" ++ pad20 k ++ " =  " ++ "<ERROR WHILE PRINTING VALUE>" ∧
    local_var_line reprF (k, v) ∈
      formatException_lines reprF pprintF tb_text stack ctx := by
  refine ⟨?_, SlackHandler_emit_ok spost app_name webhooks ts record now, ?_, ?_⟩
  · rw [sendsms]
    cases post (sendsms_request h number message) <;> rfl
  · rw [local_var_line, herr]
  · have h1 : local_var_line reprF (k, v) ∈ frame_lines reprF fr := by
      rw [frame_lines]
      exact List.mem_append_right _ (List.mem_map_of_mem _ hkv)
    have h3 : local_var_line reprF (k, v) ∈ (stack.map (frame_lines reprF)).flatten :=
      List.mem_flatten.mpr ⟨_, List.mem_map_of_mem _ hfr, h1⟩
    rw [formatException_lines]
    simp only [List.mem_append]
    exact Or.inl (Or.inl (Or.inl (Or.inl (Or.inr h3))))

/-- Shared concrete fixtures for the logger witnesses. -/
def cw_handler : SMSHandlerS :=
  { app_name := "app", exotel_sid := "esid", exotel_token := "etok",
    exotel_from := "01140", twilio_sid := "tsid", twilio_token := "ttok",
    twilio_from := "+15550101", phonenumbers := ["+15550100"] }

def cw_record : LogRecord :=
  { module := "mod", lineno := 10, levelname := "ERROR", message := "boom",
    excInfo := none, excText := none }

def cw_frame : Frame :=
  { co_name := "f", co_filename := "app.py", f_lineno := 3, f_locals := [("x", 0)] }

theorem claim_C5_witness :
    sendsms (fun _ => (.error () : Except Unit Unit)) cw_handler "+919999999999" "m" = .ok () ∧
    (∃ r, SlackHandler_emit (fun _ _ => (.error () : Except Unit Unit)) "app" [] []
      cw_record 100 = .ok r) ∧
    local_var_line (fun _ => (.error () : Except Unit String)) ("x", 0) =
      "\t" ++ pad20 "x" ++ " =  " ++ "<ERROR WHILE PRINTING VALUE>" ∧
    local_var_line (fun _ => (.error () : Except Unit String)) ("x", 0) ∈
      formatException_lines (fun _ => (.error () : Except Unit String))
        (fun _ => (.ok "" : Except Unit String)) "Traceback" [cw_frame]
        { request := none, session := none, g := none, current_auth := none } := by
  have hmix := claim_C5_secondary_failures_swallowed
    (E := Unit) (fun _ => .error ()) (fun _ _ => .error ())
    (fun _ => .error ()) (fun _ => .ok "") cw_handler "+919999999999" "m" "app"
    [] [] cw_record 100 "Traceback" [cw_frame]
    { request := none, session := none, g := none, current_auth := none }
    cw_frame "x" 0 () (by decide) (by decide) rfl
  exact ⟨hmix.1, hmix.2.1, hmix.2.2.1, hmix.2.2.2⟩

/-- Claim-side condition (C6): a WARNING-level file handler is attached
"unless LOGFILE is set to a falsy value". -/
def spec_file_cond (cfg : Config) : Bool :=
  match alookup cfg "LOGFILE" with
  | some v => v.truthy
  | none => true

/-- Claim-side condition (C6): an ERROR-level SMS handler exactly when
ADMIN_NUMBERS is truthy and all six SMS keys are present. -/
def spec_sms_cond (cfg : Config) : Bool :=
  (cfg_get cfg "ADMIN_NUMBERS" .pynone).truthy &&
    sms_config_keys.all (fun k => (alookup cfg k).isSome)

/-- Claim-side condition (C6): a Slack handler exactly when
SLACK_LOGGING_WEBHOOKS is truthy. -/
def spec_slack_cond (cfg : Config) : Bool :=
  (cfg_get cfg "SLACK_LOGGING_WEBHOOKS" .pynone).truthy

/-- Claim-side condition (C6): an ERROR-level SMTP mail handler exactly when
ADMINS is truthy. -/
def spec_mail_cond (cfg : Config) : Bool :=
  (cfg_get cfg "ADMINS" .pynone).truthy

/-- Claim C6: `init_app` attaches handlers strictly according to the named
configuration options: a WARNING-level (30) file handler unless LOGFILE is
set to a falsy value; an ERROR-level (40) SMS handler exactly when
ADMIN_NUMBERS is truthy and the six SMS keys are all present; a Slack
handler exactly when SLACK_LOGGING_WEBHOOKS is truthy; an ERROR-level SMTP
mail handler exactly when ADMINS is truthy; and no other handlers. -/
theorem claim_C6_logger_handlers (cfg : Config) :
    (init_app cfg).1 =
      (if spec_file_cond cfg then
        [Handler.file_handler (cfg_get cfg "LOGFILE" (.pystr "error.log")) 30] else []) ++
      (if spec_sms_cond cfg then
        [Handler.sms_handler (cfg_get cfg "ADMIN_NUMBERS" .pynone) 40] else []) ++
      (if spec_slack_cond cfg then
        [Handler.slack_handler (cfg_get cfg "SLACK_LOGGING_WEBHOOKS" .pynone) 0] else []) ++
      (if spec_mail_cond cfg then
        [Handler.mail_handler (cfg_get cfg "ADMINS" .pynone) 40] else []) := by
  have hfile : spec_file_cond cfg = (cfg_get cfg "LOGFILE" (.pystr "error.log")).truthy := by
    rw [spec_file_cond, cfg_get]
    cases alookup cfg "LOGFILE" <;> rfl
  rw [init_app, hfile, spec_sms_cond, spec_slack_cond, spec_mail_cond]

/-- A configuration that takes the SMS branch of `init_app`. -/
def c7_config : Config :=
  [("ADMIN_NUMBERS", .pylist ["+15550100"]),
   ("SMS_EXOTEL_SID", .pystr "esid"), ("SMS_EXOTEL_TOKEN", .pystr "etok"),
   ("SMS_EXOTEL_FROM", .pystr "01140"), ("SMS_TWILIO_SID", .pystr "tsid"),
   ("SMS_TWILIO_TOKEN", .pystr "ttok"), ("SMS_TWILIO_FROM", .pystr "+15550101")]

/-- Counterexample to claim C7 as stated: `init_app` does NOT only read
framework state — with SMS reporting configured it assigns the `SMSHandler`
attribute onto the `logging.handlers` framework module
(`logging.handlers.SMSHandler = SMSHandler`, classview line 289), a mutation
of consumed framework state. -/
theorem claim_C7_counterexample :
    (init_app c7_config).2 = ["SMSHandler"] ∧ (init_app c7_config).2 ≠ [] := by
  constructor <;> decide

/-- Claim C7 (amended): the only mutation of consumed framework state is in
`logger.init_app`, which assigns the `SMSHandler` attribute of the
`logging.handlers` module exactly when the SMS reporting condition holds and
its `SlackHandler` attribute exactly when SLACK_LOGGING_WEBHOOKS is truthy;
it performs no other framework-module writes (the loader and the formatter
are read-only: they are pure functions of the metadata, frames and
configuration they consume in this embedding). -/
theorem claim_C7_amended_module_writes (cfg : Config) :
    (init_app cfg).2 =
      (if spec_sms_cond cfg then ["SMSHandler"] else []) ++
      (if spec_slack_cond cfg then ["SlackHandler"] else []) := by
  rw [init_app, spec_sms_cond, spec_slack_cond]

/-- Claim C8: error notifications are throttled per source location: a
record whose key `(record.module, record.lineno)` was stamped into the
throttle dictionary within the last five minutes (300 seconds, inclusive)
produces no SMS and no webhook post, and leaves both throttle dictionaries
unchanged. -/
theorem claim_C8_error_throttle {E : Type}
    (spost : String → SlackPayload → Except E Unit)
    (h : SMSHandlerS) (app_name : String) (webhooks : List SlackWebhook)
    (ts_sms ts_slack : ThrottleMap) (record : LogRecord) (now t1 t2 : Int)
    (h1 : alookup ts_sms (record.module, record.lineno) = some t1)
    (h2 : now - t1 ≤ 300)
    (h3 : alookup ts_slack (record.module, record.lineno) = some t2)
    (h4 : now - t2 ≤ 300) :
    SMSHandler_emit h ts_sms record now = ([], ts_sms) ∧
    SlackHandler_emit spost app_name webhooks ts_slack record now = .ok ([], ts_slack) := by
  have e1 : throttle_expired ts_sms (record.module, record.lineno) now = false := by
    rw [throttle_expired, h1]
    exact decide_eq_false (not_lt.mpr h2)
  have e2 : throttle_expired ts_slack (record.module, record.lineno) now = false := by
    rw [throttle_expired, h3]
    exact decide_eq_false (not_lt.mpr h4)
  constructor
  · rw [SMSHandler_emit, e1]
    rfl
  · rw [SlackHandler_emit, e2]
    rfl

theorem claim_C8_witness :
    SMSHandler_emit cw_handler [(("mod", 10), 0)] cw_record 100 =
      ([], [(("mod", 10), 0)]) ∧
    SlackHandler_emit (fun _ _ => (.ok () : Except Unit Unit)) "app" []
      [(("mod", 10), 0)] cw_record 100 = .ok ([], [(("mod", 10), 0)]) :=
  claim_C8_error_throttle (fun _ _ => .ok ()) cw_handler "app" []
    [(("mod", 10), 0)] [(("mod", 10), 0)] cw_record 100 0 0
    (by decide) (by decide) (by decide) (by decide)

end Logger

end Coaster
